import Mathlib

/-!
Shallow embedding of the PROXY Protocol v2 decoder from `src/lib.rs`.

Bytes are modelled as `Nat` (a real input byte is `< 256`; theorems that
need this bound carry it as a hypothesis). The nom combinators used by the
source (`tag`, `be_u8`, `be_u16`, `take`, `map`, `verify`) are embedded as
functions over `List Nat`, in their `complete` variants exactly as the
source imports them: a too-short input for `tag` yields the `Tag` error
kind, and a too-short input for `take`/`be_u8`/`be_u16` yields `Eof`.
Errors carry the input position at which they were raised, mirroring
nom's `Error { input, code }`.
-/

namespace PPv2

/-- The nom error kinds produced by the combinators the source uses:
`ErrorKind::Tag` (from `tag`), `ErrorKind::Eof` (from `take`, `be_u8`,
`be_u16` in complete mode), `ErrorKind::Verify` (from `verify`). -/
inductive ErrorKind where
  | tag
  | eof
  | verify
  deriving DecidableEq, Repr

/-- Embedding of `IResult<&[u8], A>`: on success the remaining input and the value,
on failure the input at the error and the error kind. -/
abbrev ParseResult (α : Type) : Type := Except (List Nat × ErrorKind) (List Nat × α)

/-- Embedding of `nom::bytes::complete::tag`: succeeds iff `t` is a prefix of the
input, splitting it off; otherwise fails with `ErrorKind::Tag`
(nom's complete `tag` maps both `CompareResult::Error` and
`CompareResult::Incomplete` to the `Tag` kind). -/
def tagP (t : List Nat) (input : List Nat) : ParseResult (List Nat) :=
  if t.isPrefixOf input then
    .ok (input.drop t.length, input.take t.length)
  else
    .error (input, .tag)

/-- Embedding of `nom::bytes::complete::take (n)`: splits off the first `n` bytes,
failing with `ErrorKind::Eof` when fewer than `n` remain. -/
def takeP (n : Nat) (input : List Nat) : ParseResult (List Nat) :=
  if n ≤ input.length then
    .ok (input.drop n, input.take n)
  else
    .error (input, .eof)

/-- Embedding of `nom::number::complete::be_u8`. -/
def be_u8P (input : List Nat) : ParseResult Nat :=
  match input with
  | b :: rest => .ok (rest, b)
  | [] => .error (input, .eof)

/-- Embedding of `nom::number::complete::be_u16`: big-endian, `(b0 << 8) + b1`. -/
def be_u16P (input : List Nat) : ParseResult Nat :=
  match input with
  | b0 :: b1 :: rest => .ok (rest, b0 * 256 + b1)
  | _ => .error (input, .eof)

/-- Embedding of `nom::combinator::map`. -/
def mapP {α β : Type} (p : List Nat → ParseResult α) (f : α → β)
    (input : List Nat) : ParseResult β :=
  match p input with
  | .error e => .error e
  | .ok (rest, o) => .ok (rest, f o)

/-- Embedding of `nom::combinator::verify`: runs `p`, then checks the predicate; on a
failed check it errors with `ErrorKind::Verify` at the original input. -/
def verifyP {α : Type} (p : List Nat → ParseResult α) (f : α → Bool)
    (input : List Nat) : ParseResult α :=
  match p input with
  | .error e => .error e
  | .ok (rest, o) => if f o then .ok (rest, o) else .error (input, .verify)

/-- Struct `PPv2Header` from the source (`u8`/`u16` fields as `Nat`). -/
structure PPv2Header where
  version : Nat
  command : Nat
  protocol : Nat
  address_family : Nat
  length : Nat
  deriving DecidableEq, Repr

/-- Model of `std::net::Ipv4Addr`: four octets, most significant first, as built by
`Ipv4Addr::new(b[0], b[1], b[2], b[3])`. -/
structure Ipv4Addr where
  o0 : Nat
  o1 : Nat
  o2 : Nat
  o3 : Nat
  deriving DecidableEq, Repr

/-- Model of `std::net::Ipv6Addr`: eight 16-bit groups, as built by
`Ipv6Addr::new(g0, ..., g7)`. -/
structure Ipv6Addr where
  g0 : Nat
  g1 : Nat
  g2 : Nat
  g3 : Nat
  g4 : Nat
  g5 : Nat
  g6 : Nat
  g7 : Nat
  deriving DecidableEq, Repr

/-- Struct `IPv4Address` from the source. -/
structure IPv4Address where
  source_ip : Ipv4Addr
  destination_ip : Ipv4Addr
  source_port : Nat
  destination_port : Nat
  deriving DecidableEq, Repr

/-- Struct `IPv6Address` from the source. -/
structure IPv6Address where
  source_ip : Ipv6Addr
  destination_ip : Ipv6Addr
  source_port : Nat
  destination_port : Nat
  deriving DecidableEq, Repr

/-- The fixed 12-byte PPv2 signature from `parse_signature`. -/
def SIGNATURE : List Nat :=
  [0x0D, 0x0A, 0x0D, 0x0A, 0x00, 0x0D, 0x0A, 0x51, 0x55, 0x49, 0x54, 0x0A]

/-- Source function `parse_signature`: `tag(&[0x0D, ..., 0x0A])(input)`. -/
def parse_signature (input : List Nat) : ParseResult (List Nat) :=
  tagP SIGNATURE input

/-- Source function `parse_header`: matches the signature, then a version/command byte
verified to have high nibble 2, a protocol/family byte, and a big-endian
16-bit length. -/
def parse_header (input : List Nat) : ParseResult PPv2Header :=
  match parse_signature input with
  | .error e => .error e
  | .ok (input, _) =>
    match verifyP be_u8P (fun v => v >>> 4 == 2) input with
    | .error e => .error e
    | .ok (input, version_command) =>
      match be_u8P input with
      | .error e => .error e
      | .ok (input, proto_family) =>
        match be_u16P input with
        | .error e => .error e
        | .ok (input, length) =>
          .ok (input,
            { version := version_command >>> 4
              command := version_command &&& 0x0F
              protocol := proto_family &&& 0x0F
              address_family := proto_family >>> 4
              length := length })

/-- Source function `parse_ipv4_address`: two 4-byte addresses then two big-endian ports. -/
def parse_ipv4_address (input : List Nat) : ParseResult IPv4Address :=
  match mapP (takeP 4) (fun b : List Nat =>
      Ipv4Addr.mk (b.getD 0 0) (b.getD 1 0) (b.getD 2 0) (b.getD 3 0)) input with
  | .error e => .error e
  | .ok (input, source_ip) =>
    match mapP (takeP 4) (fun b : List Nat =>
        Ipv4Addr.mk (b.getD 0 0) (b.getD 1 0) (b.getD 2 0) (b.getD 3 0)) input with
    | .error e => .error e
    | .ok (input, destination_ip) =>
      match be_u16P input with
      | .error e => .error e
      | .ok (input, source_port) =>
        match be_u16P input with
        | .error e => .error e
        | .ok (input, destination_port) =>
          .ok (input,
            { source_ip := source_ip
              destination_ip := destination_ip
              source_port := source_port
              destination_port := destination_port })

/-- The group builder inside `parse_ipv6_address`:
`Ipv6Addr::new((b[0] as u16) << 8 | b[1] as u16, ...)`. -/
def ipv6_of_bytes (b : List Nat) : Ipv6Addr :=
  Ipv6Addr.mk
    (b.getD 0 0 <<< 8 ||| b.getD 1 0)
    (b.getD 2 0 <<< 8 ||| b.getD 3 0)
    (b.getD 4 0 <<< 8 ||| b.getD 5 0)
    (b.getD 6 0 <<< 8 ||| b.getD 7 0)
    (b.getD 8 0 <<< 8 ||| b.getD 9 0)
    (b.getD 10 0 <<< 8 ||| b.getD 11 0)
    (b.getD 12 0 <<< 8 ||| b.getD 13 0)
    (b.getD 14 0 <<< 8 ||| b.getD 15 0)

/-- Source function `parse_ipv6_address`: two 16-byte addresses of eight big-endian
16-bit groups each, then two big-endian ports. -/
def parse_ipv6_address (input : List Nat) : ParseResult IPv6Address :=
  match mapP (takeP 16) ipv6_of_bytes input with
  | .error e => .error e
  | .ok (input, source_ip) =>
    match mapP (takeP 16) ipv6_of_bytes input with
    | .error e => .error e
    | .ok (input, destination_ip) =>
      match be_u16P input with
      | .error e => .error e
      | .ok (input, source_port) =>
        match be_u16P input with
        | .error e => .error e
        | .ok (input, destination_port) =>
          .ok (input,
            { source_ip := source_ip
              destination_ip := destination_ip
              source_port := source_port
              destination_port := destination_port })

/-- The three-stage pipeline named by the specification: signature
matcher, then header decoder, then IPv4 address decoder, each stage fed
the previous stage's remainder. -/
def pipeline3 (input : List Nat) :
    Except (List Nat × ErrorKind) (List Nat × PPv2Header × IPv4Address) :=
  match parse_signature input with
  | .error e => .error e
  | .ok (input, _) =>
    match parse_header input with
    | .error e => .error e
    | .ok (input, header) =>
      match parse_ipv4_address input with
      | .error e => .error e
      | .ok (input, addr) => .ok (input, header, addr)

/-! ### Helper lemmas about the embedded combinators -/

lemma isPrefixOf_append_self (t l : List Nat) : t.isPrefixOf (t ++ l) = true := by
  induction t with
  | nil => simp [List.isPrefixOf]
  | cons a t ih => simp [List.isPrefixOf, ih]

lemma isPrefixOf_length_le : ∀ {t l : List Nat}, t.isPrefixOf l = true → t.length ≤ l.length := by
  intro t
  induction t with
  | nil => intro l _; simp
  | cons a t ih =>
    intro l h
    cases l with
    | nil => simp [List.isPrefixOf] at h
    | cons b l =>
      simp only [List.isPrefixOf, Bool.and_eq_true] at h
      have := ih h.2
      simp only [List.length_cons]
      omega

lemma tagP_append (t l : List Nat) : tagP t (t ++ l) = .ok (l, t) := by
  simp [tagP, isPrefixOf_append_self, List.drop_left, List.take_left]

lemma takeP_ok {n : Nat} {l : List Nat} (h : n ≤ l.length) :
    takeP n l = .ok (l.drop n, l.take n) := by
  simp [takeP, h]

lemma takeP_err {n : Nat} {l : List Nat} (h : l.length < n) :
    takeP n l = .error (l, .eof) := by
  rw [takeP, if_neg]
  omega

lemma be_u16P_err {l : List Nat} (h : l.length < 2) : be_u16P l = .error (l, .eof) := by
  match l with
  | [] => rfl
  | [b] => rfl
  | b0 :: b1 :: rest => simp at h; omega

lemma drop_cons_getD {l : List Nat} {n : Nat} (h : n < l.length) :
    l.drop n = l.getD n 0 :: l.drop (n + 1) := by
  rw [List.drop_eq_getElem_cons h, List.getD_eq_getElem l 0 h]

lemma be_u16P_drop {l : List Nat} {n : Nat} (h : n + 1 < l.length) :
    be_u16P (l.drop n) = .ok (l.drop (n + 2), l.getD n 0 * 256 + l.getD (n + 1) 0) := by
  rw [drop_cons_getD (by omega), drop_cons_getD (by omega)]
  rfl

lemma getD_take {l : List Nat} {n i : Nat} (h : i < n) :
    (l.take n).getD i 0 = l.getD i 0 := by
  simp [List.getD_eq_getElem?_getD, List.getElem?_take, h]

lemma getD_drop (l : List Nat) (n i : Nat) :
    (l.drop n).getD i 0 = l.getD (n + i) 0 := by
  simp [List.getD_eq_getElem?_getD, List.getElem?_drop]

lemma getD_lt_256 {l : List Nat} (hb : ∀ b ∈ l, b < 256) (k : Nat) : l.getD k 0 < 256 := by
  by_cases hk : k < l.length
  · rw [List.getD_eq_getElem l 0 hk]
    exact hb _ (List.getElem_mem hk)
  · rw [List.getD_eq_default l 0 (by omega)]
    omega

lemma shiftLeft8_or {a b : Nat} (hb : b < 256) : a <<< 8 ||| b = a * 256 + b := by
  have h := @Nat.mul_add_lt_is_or 8 b (by simpa using hb) a
  rw [Nat.shiftLeft_eq, Nat.mul_comm a, ← h, Nat.mul_comm]

/-! ### Helper lemmas about `parse_header` -/

lemma parse_header_append {vc pf l1 l2 : Nat} (rest : List Nat)
    (hv : (vc >>> 4 == 2) = true) :
    parse_header (SIGNATURE ++ vc :: pf :: l1 :: l2 :: rest) =
      .ok (rest, ⟨vc >>> 4, vc &&& 0x0F, pf &&& 0x0F, pf >>> 4, l1 * 256 + l2⟩) := by
  simp [parse_header, parse_signature, tagP_append, verifyP, be_u8P, be_u16P, hv]

lemma parse_header_verify_err {vc : Nat} (rest : List Nat)
    (hv : (vc >>> 4 == 2) = false) :
    parse_header (SIGNATURE ++ vc :: rest) = .error (vc :: rest, .verify) := by
  simp [parse_header, parse_signature, tagP_append, verifyP, be_u8P, hv]

lemma parse_header_ok_inv {input rem : List Nat} {h : PPv2Header}
    (hok : parse_header input = .ok (rem, h)) :
    SIGNATURE.isPrefixOf input = true ∧ 16 ≤ input.length ∧ rem = input.drop 16 ∧
      ∃ vc pf l1 l2,
        input.drop 12 = vc :: pf :: l1 :: l2 :: rem ∧ (vc >>> 4 == 2) = true ∧
        h = ⟨vc >>> 4, vc &&& 0x0F, pf &&& 0x0F, pf >>> 4, l1 * 256 + l2⟩ := by
  unfold parse_header parse_signature tagP at hok
  by_cases hp : SIGNATURE.isPrefixOf input
  case neg => simp [hp] at hok
  case pos =>
    have hsl : SIGNATURE.length = 12 := rfl
    rw [hsl] at hok
    simp only [hp, if_true] at hok
    have h12 : (12 : Nat) ≤ input.length := by
      have := isPrefixOf_length_le hp
      omega
    rcases hd : input.drop 12 with _ | ⟨vc, t1⟩ <;> rw [hd] at hok
    · simp [verifyP, be_u8P] at hok
    rcases t1 with _ | ⟨pf, t2⟩
    · by_cases hv : (vc >>> 4 == 2) = true <;> simp [verifyP, be_u8P, hv] at hok
    rcases t2 with _ | ⟨l1, t3⟩
    · by_cases hv : (vc >>> 4 == 2) = true <;>
        simp [verifyP, be_u8P, be_u16P, hv] at hok
    rcases t3 with _ | ⟨l2, t4⟩
    · by_cases hv : (vc >>> 4 == 2) = true <;>
        simp [verifyP, be_u8P, be_u16P, hv] at hok
    by_cases hv : (vc >>> 4 == 2) = true
    case neg => simp [verifyP, be_u8P, hv] at hok
    case pos =>
      simp [verifyP, be_u8P, be_u16P, hv] at hok
      obtain ⟨hrem, hh⟩ := hok
      have hlen4 : (input.drop 12).length = t4.length + 4 := by rw [hd]; simp
      have hlen : 16 ≤ input.length := by
        rw [List.length_drop] at hlen4
        omega
      have hdrop16 : input.drop 16 = t4 := by
        have : (input.drop 12).drop 4 = input.drop 16 := by
          rw [List.drop_drop]
        rw [← this, hd]
        rfl
      subst hrem
      exact ⟨hp, hlen, hdrop16.symm, vc, pf, l1, l2, rfl, hv, hh.symm⟩

/-! ### Helper lemmas about the address decoders -/

lemma parse_ipv4_ok {input : List Nat} (h : 12 ≤ input.length) :
    parse_ipv4_address input = .ok (input.drop 12,
      ⟨⟨input.getD 0 0, input.getD 1 0, input.getD 2 0, input.getD 3 0⟩,
       ⟨input.getD 4 0, input.getD 5 0, input.getD 6 0, input.getD 7 0⟩,
       input.getD 8 0 * 256 + input.getD 9 0,
       input.getD 10 0 * 256 + input.getD 11 0⟩) := by
  have h1 : takeP 4 input = .ok (input.drop 4, input.take 4) := takeP_ok (by omega)
  have h2 : takeP 4 (input.drop 4) = .ok (input.drop 8, (input.drop 4).take 4) := by
    rw [takeP_ok (by rw [List.length_drop]; omega), List.drop_drop]
  have h3 : be_u16P (input.drop 8) =
      .ok (input.drop 10, input.getD 8 0 * 256 + input.getD 9 0) :=
    be_u16P_drop (by omega)
  have h4 : be_u16P (input.drop 10) =
      .ok (input.drop 12, input.getD 10 0 * 256 + input.getD 11 0) :=
    be_u16P_drop (by omega)
  simp [parse_ipv4_address, mapP, h1, h2, h3, h4, getD_take, getD_drop]

lemma parse_ipv4_err {input : List Nat} (h : input.length < 12) :
    ∃ rem, parse_ipv4_address input = .error (rem, .eof) := by
  by_cases h4 : input.length < 4
  · exact ⟨input, by simp [parse_ipv4_address, mapP, takeP_err h4]⟩
  · have h1 : takeP 4 input = .ok (input.drop 4, input.take 4) := takeP_ok (by omega)
    by_cases h8 : input.length < 8
    · refine ⟨input.drop 4, ?_⟩
      simp [parse_ipv4_address, mapP, h1,
        takeP_err (show (input.drop 4).length < 4 by rw [List.length_drop]; omega)]
    · have h2 : takeP 4 (input.drop 4) = .ok (input.drop 8, (input.drop 4).take 4) := by
        rw [takeP_ok (by rw [List.length_drop]; omega), List.drop_drop]
      by_cases h10 : input.length < 10
      · refine ⟨input.drop 8, ?_⟩
        simp [parse_ipv4_address, mapP, h1, h2,
          be_u16P_err (show (input.drop 8).length < 2 by rw [List.length_drop]; omega)]
      · have h3 : be_u16P (input.drop 8) =
            .ok (input.drop 10, input.getD 8 0 * 256 + input.getD 9 0) :=
          be_u16P_drop (by omega)
        refine ⟨input.drop 10, ?_⟩
        simp [parse_ipv4_address, mapP, h1, h2, h3,
          be_u16P_err (show (input.drop 10).length < 2 by rw [List.length_drop]; omega)]

lemma ipv6_of_take16 {input : List Nat} (hb : ∀ b ∈ input, b < 256) :
    ipv6_of_bytes (input.take 16) =
      ⟨input.getD 0 0 * 256 + input.getD 1 0,
       input.getD 2 0 * 256 + input.getD 3 0,
       input.getD 4 0 * 256 + input.getD 5 0,
       input.getD 6 0 * 256 + input.getD 7 0,
       input.getD 8 0 * 256 + input.getD 9 0,
       input.getD 10 0 * 256 + input.getD 11 0,
       input.getD 12 0 * 256 + input.getD 13 0,
       input.getD 14 0 * 256 + input.getD 15 0⟩ := by
  simp only [ipv6_of_bytes, getD_take (by omega : (0:Nat) < 16),
    getD_take (by omega : (1:Nat) < 16), getD_take (by omega : (2:Nat) < 16),
    getD_take (by omega : (3:Nat) < 16), getD_take (by omega : (4:Nat) < 16),
    getD_take (by omega : (5:Nat) < 16), getD_take (by omega : (6:Nat) < 16),
    getD_take (by omega : (7:Nat) < 16), getD_take (by omega : (8:Nat) < 16),
    getD_take (by omega : (9:Nat) < 16), getD_take (by omega : (10:Nat) < 16),
    getD_take (by omega : (11:Nat) < 16), getD_take (by omega : (12:Nat) < 16),
    getD_take (by omega : (13:Nat) < 16), getD_take (by omega : (14:Nat) < 16),
    getD_take (by omega : (15:Nat) < 16)]
  rw [shiftLeft8_or (getD_lt_256 hb 1), shiftLeft8_or (getD_lt_256 hb 3),
    shiftLeft8_or (getD_lt_256 hb 5), shiftLeft8_or (getD_lt_256 hb 7),
    shiftLeft8_or (getD_lt_256 hb 9), shiftLeft8_or (getD_lt_256 hb 11),
    shiftLeft8_or (getD_lt_256 hb 13), shiftLeft8_or (getD_lt_256 hb 15)]

lemma parse_ipv6_ok {input : List Nat} (h : 36 ≤ input.length)
    (hb : ∀ b ∈ input, b < 256) :
    parse_ipv6_address input = .ok (input.drop 36,
      ⟨⟨input.getD 0 0 * 256 + input.getD 1 0,
        input.getD 2 0 * 256 + input.getD 3 0,
        input.getD 4 0 * 256 + input.getD 5 0,
        input.getD 6 0 * 256 + input.getD 7 0,
        input.getD 8 0 * 256 + input.getD 9 0,
        input.getD 10 0 * 256 + input.getD 11 0,
        input.getD 12 0 * 256 + input.getD 13 0,
        input.getD 14 0 * 256 + input.getD 15 0⟩,
       ⟨input.getD 16 0 * 256 + input.getD 17 0,
        input.getD 18 0 * 256 + input.getD 19 0,
        input.getD 20 0 * 256 + input.getD 21 0,
        input.getD 22 0 * 256 + input.getD 23 0,
        input.getD 24 0 * 256 + input.getD 25 0,
        input.getD 26 0 * 256 + input.getD 27 0,
        input.getD 28 0 * 256 + input.getD 29 0,
        input.getD 30 0 * 256 + input.getD 31 0⟩,
       input.getD 32 0 * 256 + input.getD 33 0,
       input.getD 34 0 * 256 + input.getD 35 0⟩) := by
  have hb16 : ∀ b ∈ input.drop 16, b < 256 := fun b hm => hb b (List.drop_subset 16 input hm)
  have h1 : takeP 16 input = .ok (input.drop 16, input.take 16) := takeP_ok (by omega)
  have h2 : takeP 16 (input.drop 16) = .ok (input.drop 32, (input.drop 16).take 16) := by
    rw [takeP_ok (by rw [List.length_drop]; omega), List.drop_drop]
  have h3 : be_u16P (input.drop 32) =
      .ok (input.drop 34, input.getD 32 0 * 256 + input.getD 33 0) :=
    be_u16P_drop (by omega)
  have h4 : be_u16P (input.drop 34) =
      .ok (input.drop 36, input.getD 34 0 * 256 + input.getD 35 0) :=
    be_u16P_drop (by omega)
  have hsrc := ipv6_of_take16 hb
  have hdst := ipv6_of_take16 hb16
  simp only [getD_drop] at hdst
  simp [parse_ipv6_address, mapP, h1, h2, h3, h4, hsrc, hdst]

lemma parse_ipv6_err {input : List Nat} (h : input.length < 36) :
    ∃ rem, parse_ipv6_address input = .error (rem, .eof) := by
  by_cases h16 : input.length < 16
  · exact ⟨input, by simp [parse_ipv6_address, mapP, takeP_err h16]⟩
  · have h1 : takeP 16 input = .ok (input.drop 16, input.take 16) := takeP_ok (by omega)
    by_cases h32 : input.length < 32
    · refine ⟨input.drop 16, ?_⟩
      simp [parse_ipv6_address, mapP, h1,
        takeP_err (show (input.drop 16).length < 16 by rw [List.length_drop]; omega)]
    · have h2 : takeP 16 (input.drop 16) = .ok (input.drop 32, (input.drop 16).take 16) := by
        rw [takeP_ok (by rw [List.length_drop]; omega), List.drop_drop]
      by_cases h34 : input.length < 34
      · refine ⟨input.drop 32, ?_⟩
        simp [parse_ipv6_address, mapP, h1, h2,
          be_u16P_err (show (input.drop 32).length < 2 by rw [List.length_drop]; omega)]
      · have h3 : be_u16P (input.drop 32) =
            .ok (input.drop 34, input.getD 32 0 * 256 + input.getD 33 0) :=
          be_u16P_drop (by omega)
        refine ⟨input.drop 34, ?_⟩
        simp [parse_ipv6_address, mapP, h1, h2, h3,
          be_u16P_err (show (input.drop 34).length < 2 by rw [List.length_drop]; omega)]

/-! ### Claim theorems -/

/-- Claim C1, counterexample: applied to the bare 4 header bytes
`[0x21, 0x11, 0x00, 0x0C]` (with no signature in front), `parse_header`
does not succeed: it fails with the `Tag` error kind, because it first
re-matches the 12-byte signature itself. -/
theorem parse_header_four_bytes_fails :
    parse_header [0x21, 0x11, 0x00, 0x0C] =
      .error ([0x21, 0x11, 0x00, 0x0C], .tag) := rfl

/-- Claim C1, amended: the header decoder `parse_header` consumes the
12-byte signature itself and then exactly 4 header bytes; applied to the
signature followed by `[0x21, 0x11, 0x00, 0x0C]` it succeeds and yields
`{version := 2, command := 1, protocol := 1, address_family := 1,
length := 12}`, returning any trailing bytes as the remainder (empty
remainder when nothing follows). -/
theorem parse_header_signature_then_four (rest : List Nat) :
    parse_header (SIGNATURE ++ 0x21 :: 0x11 :: 0x00 :: 0x0C :: rest) =
      .ok (rest, ⟨2, 1, 1, 1, 12⟩) :=
  @parse_header_append 0x21 0x11 0x00 0x0C rest rfl

/-- Claim C2, counterexample: the empty input is shorter than 12 bytes,
yet `parse_signature` fails with the `Tag` kind (the signature-mismatch
kind), not with the `Eof` (insufficient-input) kind. -/
theorem parse_signature_empty_tag :
    ([] : List Nat).length < 12 ∧
    parse_signature [] = .error ([], .tag) ∧
    ErrorKind.tag ≠ ErrorKind.eof :=
  ⟨by decide, rfl, by decide⟩

/-- Claim C2, amended: for every input shorter than 12 bytes,
`parse_signature` fails with the `Tag` error kind; nom's complete-mode
`tag` combinator does not emit a distinct insufficient-input kind for a
truncated input. -/
theorem parse_signature_short_tag (input : List Nat) (h : input.length < 12) :
    parse_signature input = .error (input, .tag) := by
  have hp : ¬ (SIGNATURE.isPrefixOf input = true) := by
    intro hp
    have hle : (12 : Nat) ≤ input.length := isPrefixOf_length_le hp
    omega
  simp only [parse_signature, tagP]
  rw [if_neg hp]

/-- Witness for claim C2's amended theorem at the concrete input `[0x0D]`. -/
theorem parse_signature_short_tag_witness :
    parse_signature [0x0D] = .error ([0x0D], .tag) :=
  parse_signature_short_tag [0x0D] (by decide)

/-- Claim C3, counterexample: chaining the three stages as written —
`parse_signature`, then `parse_header` on its remainder, then
`parse_ipv4_address` — fails on the valid 28-byte input, because
`parse_header` re-requires the signature that the first stage already
consumed. -/
theorem pipeline3_valid_input_fails :
    pipeline3 (SIGNATURE ++
        [0x21, 0x11, 0x00, 0x0C, 192, 168, 1, 1, 192, 168, 1, 2, 0x1F, 0x90, 0x00, 0x50]) =
      .error ([0x21, 0x11, 0x00, 0x0C, 192, 168, 1, 1, 192, 168, 1, 2, 0x1F, 0x90, 0x00, 0x50],
        .tag) := rfl

set_option maxRecDepth 4096 in
/-- Claim C3, amended: the pipeline the code provides is two-stage —
`parse_header` (which matches the signature itself, consuming 16 bytes:
the 12 signature bytes plus 4 header bytes) followed by
`parse_ipv4_address` (consuming exactly 12 bytes). On the 28-byte input
it yields the Header `{2, 1, 1, 1, 12}` and the IPv4 address
`192.168.1.1:8080 → 192.168.1.2:80`, with zero bytes remaining, and any
trailing bytes are returned untouched by each stage. -/
theorem header_then_ipv4_pipeline (rest : List Nat) :
    parse_header (SIGNATURE ++ 0x21 :: 0x11 :: 0x00 :: 0x0C :: 192 :: 168 :: 1 :: 1 ::
        192 :: 168 :: 1 :: 2 :: 0x1F :: 0x90 :: 0x00 :: 0x50 :: rest) =
      .ok (192 :: 168 :: 1 :: 1 :: 192 :: 168 :: 1 :: 2 :: 0x1F :: 0x90 :: 0x00 :: 0x50 :: rest,
        ⟨2, 1, 1, 1, 12⟩) ∧
    parse_ipv4_address (192 :: 168 :: 1 :: 1 :: 192 :: 168 :: 1 :: 2 :: 0x1F :: 0x90 ::
        0x00 :: 0x50 :: rest) =
      .ok (rest, ⟨⟨192, 168, 1, 1⟩, ⟨192, 168, 1, 2⟩, 8080, 80⟩) := by
  constructor
  · exact @parse_header_append 0x21 0x11 0x00 0x0C
      (192 :: 168 :: 1 :: 1 :: 192 :: 168 :: 1 :: 2 :: 0x1F :: 0x90 :: 0x00 :: 0x50 :: rest) rfl
  · exact @parse_ipv4_ok (192 :: 168 :: 1 :: 1 :: 192 :: 168 :: 1 :: 2 ::
      0x1F :: 0x90 :: 0x00 :: 0x50 :: rest) (by simp only [List.length_cons]; omega)

/-- Claim C4: for every input of length at least 12, `parse_signature`
succeeds iff the first 12 bytes equal the magic sequence, returning the
input with those 12 bytes removed (and the consumed signature); any other
12-byte prefix fails with the `Tag` (signature mismatch) kind. -/
theorem parse_signature_exact_match (input : List Nat) (h : 12 ≤ input.length) :
    (input.take 12 = SIGNATURE →
      parse_signature input = .ok (input.drop 12, SIGNATURE)) ∧
    (input.take 12 ≠ SIGNATURE →
      parse_signature input = .error (input, .tag)) := by
  have key : SIGNATURE.isPrefixOf input = true ↔ input.take 12 = SIGNATURE := by
    rw [ List.isPrefixOf_iff_prefix, List.prefix_iff_eq_take]
    exact eq_comm
  constructor
  · intro ht
    have hp : SIGNATURE.isPrefixOf input = true := key.mpr ht
    simp only [parse_signature, tagP]
    rw [if_pos hp, show SIGNATURE.length = 12 from rfl, ht]
  · intro ht
    have hp : ¬ (SIGNATURE.isPrefixOf input = true) := fun hp => ht (key.mp hp)
    simp only [parse_signature, tagP]
    rw [if_neg hp]

/-- Witness for claim C4 at the concrete input `SIGNATURE ++ [7]`. -/
theorem parse_signature_exact_match_witness :
    parse_signature (SIGNATURE ++ [7]) = .ok ([7], SIGNATURE) :=
  (parse_signature_exact_match (SIGNATURE ++ [7]) (by decide)).1 (by decide)

/-- Claim C5: whenever the high nibble of the version/command byte (the
byte right after the signature) is not 2, `parse_header` fails with the
`Verify` (unsupported version) kind regardless of the remaining bytes;
and every header a successful `parse_header` produces has version 2. -/
theorem parse_header_version_guard :
    (∀ vc rest, vc / 16 ≠ 2 →
      parse_header (SIGNATURE ++ vc :: rest) = .error (vc :: rest, .verify)) ∧
    (∀ input rem h, parse_header input = .ok (rem, h) → h.version = 2) := by
  constructor
  · intro vc rest hv
    apply parse_header_verify_err
    have hs : vc >>> 4 = vc / 16 := by rw [Nat.shiftRight_eq_div_pow]
    rw [beq_eq_false_iff_ne, hs]
    exact hv
  · intro input rem h hok
    obtain ⟨-, -, -, vc, pf, l1, l2, -, hv, hh⟩ := parse_header_ok_inv hok
    subst hh
    exact beq_iff_eq.mp hv

/-- Witness for claim C5 at the concrete input `SIGNATURE ++ [0x11]`. -/
theorem parse_header_version_guard_witness :
    parse_header (SIGNATURE ++ [0x11]) = .error ([0x11], .verify) :=
  parse_header_version_guard.1 0x11 [] (by decide)

/-- Claim C6: for every input of length at least 12, `parse_ipv4_address`
succeeds, consumes exactly 12 bytes — 4 source octets (most significant
first), 4 destination octets, then big-endian 16-bit source and
destination ports, with no validation — and returns the rest untouched;
with fewer than 12 bytes it fails with the `Eof` (insufficient input)
kind. -/
theorem parse_ipv4_address_spec (input : List Nat) :
    (12 ≤ input.length → parse_ipv4_address input = .ok (input.drop 12,
      ⟨⟨input.getD 0 0, input.getD 1 0, input.getD 2 0, input.getD 3 0⟩,
       ⟨input.getD 4 0, input.getD 5 0, input.getD 6 0, input.getD 7 0⟩,
       input.getD 8 0 * 256 + input.getD 9 0,
       input.getD 10 0 * 256 + input.getD 11 0⟩)) ∧
    (input.length < 12 → ∃ rem, parse_ipv4_address input = .error (rem, .eof)) :=
  ⟨fun h => parse_ipv4_ok h, fun h => parse_ipv4_err h⟩

/-- Witness for claim C6 at the spec's concrete example bytes. -/
theorem parse_ipv4_address_spec_witness :
    parse_ipv4_address [192, 168, 1, 1, 192, 168, 1, 2, 0x1F, 0x90, 0x00, 0x50] =
      .ok ([], ⟨⟨192, 168, 1, 1⟩, ⟨192, 168, 1, 2⟩, 8080, 80⟩) :=
  (parse_ipv4_address_spec
    [192, 168, 1, 1, 192, 168, 1, 2, 0x1F, 0x90, 0x00, 0x50]).1 (by decide)

/-- Claim C7: for every byte input of length at least 36,
`parse_ipv6_address` succeeds, consumes exactly 36 bytes — 16 bytes of
source address read as eight big-endian 16-bit groups, 16 bytes of
destination address likewise, then big-endian 16-bit source and
destination ports (unvalidated, so port 0 passes through) — and with
fewer than 36 bytes it fails with the `Eof` (insufficient input) kind. -/
theorem parse_ipv6_address_spec (input : List Nat) :
    (36 ≤ input.length → (∀ b ∈ input, b < 256) →
      parse_ipv6_address input = .ok (input.drop 36,
        ⟨⟨input.getD 0 0 * 256 + input.getD 1 0,
          input.getD 2 0 * 256 + input.getD 3 0,
          input.getD 4 0 * 256 + input.getD 5 0,
          input.getD 6 0 * 256 + input.getD 7 0,
          input.getD 8 0 * 256 + input.getD 9 0,
          input.getD 10 0 * 256 + input.getD 11 0,
          input.getD 12 0 * 256 + input.getD 13 0,
          input.getD 14 0 * 256 + input.getD 15 0⟩,
         ⟨input.getD 16 0 * 256 + input.getD 17 0,
          input.getD 18 0 * 256 + input.getD 19 0,
          input.getD 20 0 * 256 + input.getD 21 0,
          input.getD 22 0 * 256 + input.getD 23 0,
          input.getD 24 0 * 256 + input.getD 25 0,
          input.getD 26 0 * 256 + input.getD 27 0,
          input.getD 28 0 * 256 + input.getD 29 0,
          input.getD 30 0 * 256 + input.getD 31 0⟩,
         input.getD 32 0 * 256 + input.getD 33 0,
         input.getD 34 0 * 256 + input.getD 35 0⟩)) ∧
    (input.length < 36 → ∃ rem, parse_ipv6_address input = .error (rem, .eof)) :=
  ⟨fun h hb => parse_ipv6_ok h hb, fun h => parse_ipv6_err h⟩

/-- Witness for claim C7: the all-zero-groups address with source port 0
and destination port 80 decodes exactly, demonstrating that port 0 passes
through unchanged. -/
theorem parse_ipv6_address_spec_witness :
    parse_ipv6_address
      [0, 0, 0, 0, 0, 0, 0, 0, 0, 0, 0, 0, 0, 0, 0, 0,
       0, 0, 0, 0, 0, 0, 0, 0, 0, 0, 0, 0, 0, 0, 0, 0,
       0, 0, 0, 80] =
      .ok ([], ⟨⟨0, 0, 0, 0, 0, 0, 0, 0⟩, ⟨0, 0, 0, 0, 0, 0, 0, 0⟩, 0, 80⟩) :=
  (parse_ipv6_address_spec
    [0, 0, 0, 0, 0, 0, 0, 0, 0, 0, 0, 0, 0, 0, 0, 0,
     0, 0, 0, 0, 0, 0, 0, 0, 0, 0, 0, 0, 0, 0, 0, 0,
     0, 0, 0, 80]).1 (by decide) (by decide)

/-- Claim C8: with a valid version nibble and sufficient input,
`parse_header` passes the second byte through raw: `address_family` is its
high nibble, `protocol` its low nibble, `command` the low nibble of the
first byte, and `length` the big-endian 16-bit value of bytes 3 and 4,
with no upper-bound check — for every value of these bytes. -/
theorem parse_header_passthrough (vc pf l1 l2 : Nat) (rest : List Nat)
    (hv : vc / 16 = 2) :
    parse_header (SIGNATURE ++ vc :: pf :: l1 :: l2 :: rest) =
      .ok (rest, { version := 2, command := vc % 16, protocol := pf % 16,
                   address_family := pf / 16, length := l1 * 256 + l2 }) := by
  have hs : vc >>> 4 = vc / 16 := by rw [Nat.shiftRight_eq_div_pow]
  have hbv : (vc >>> 4 == 2) = true := by rw [beq_iff_eq, hs]; exact hv
  rw [parse_header_append rest hbv]
  have h2 : vc &&& 0x0F = vc % 16 := Nat.and_pow_two_sub_one_eq_mod vc 4
  have h3 : pf &&& 0x0F = pf % 16 := Nat.and_pow_two_sub_one_eq_mod pf 4
  have h4 : pf >>> 4 = pf / 16 := by rw [Nat.shiftRight_eq_div_pow]
  rw [hs, hv, h2, h3, h4]

/-- Witness for claim C8 at an unlisted family/protocol byte `0xF5` and a
large length `0xABCD`, showing that no validation rejects them. -/
theorem parse_header_passthrough_witness :
    parse_header (SIGNATURE ++ [0x21, 0xF5, 0xAB, 0xCD]) =
      .ok ([], { version := 2, command := 1, protocol := 5,
                 address_family := 15, length := 43981 }) :=
  parse_header_passthrough 0x21 0xF5 0xAB 0xCD [] (by decide)

/-- Claim C9: `parse_header` succeeds only on inputs that begin with the
12-byte magic sequence, and on success it has consumed 16 bytes in total
(signature plus 4 header bytes), returning the input with its first 16
bytes removed as the remainder. -/
theorem parse_header_consumes_sixteen (input rem : List Nat) (h : PPv2Header)
    (hok : parse_header input = .ok (rem, h)) :
    SIGNATURE.isPrefixOf input = true ∧ 16 ≤ input.length ∧ rem = input.drop 16 := by
  obtain ⟨hp, hlen, hrem, -⟩ := parse_header_ok_inv hok
  exact ⟨hp, hlen, hrem⟩

/-- Witness for claim C9 at the concrete valid 16-byte input. -/
theorem parse_header_consumes_sixteen_witness :
    SIGNATURE.isPrefixOf (SIGNATURE ++ [0x21, 0x11, 0x00, 0x0C]) = true ∧
    16 ≤ (SIGNATURE ++ [0x21, 0x11, 0x00, 0x0C]).length ∧
    ([] : List Nat) = (SIGNATURE ++ [0x21, 0x11, 0x00, 0x0C]).drop 16 :=
  parse_header_consumes_sixteen (SIGNATURE ++ [0x21, 0x11, 0x00, 0x0C]) []
    ⟨2, 1, 1, 1, 12⟩ (@parse_header_append 0x21 0x11 0x00 0x0C [] rfl)

/-- Claim C10: every header produced by a successful `parse_header` on a
byte input (each element below 256) has all four nibble fields strictly
below 16. -/
theorem parse_header_nibble_bounds (input rem : List Nat) (h : PPv2Header)
    (hok : parse_header input = .ok (rem, h)) (hb : ∀ b ∈ input, b < 256) :
    h.version < 16 ∧ h.command < 16 ∧ h.protocol < 16 ∧ h.address_family < 16 := by
  obtain ⟨hp, hlen, hrem, vc, pf, l1, l2, hd, hv, hh⟩ := parse_header_ok_inv hok
  subst hh
  have hpf : pf < 256 := by
    have hmem : pf ∈ input.drop 12 := by rw [hd]; simp
    exact hb pf (List.drop_subset 12 input hmem)
  have hvx : vc >>> 4 = 2 := beq_iff_eq.mp hv
  have hcmd : vc &&& 0x0F = vc % 16 := Nat.and_pow_two_sub_one_eq_mod vc 4
  have hprot : pf &&& 0x0F = pf % 16 := Nat.and_pow_two_sub_one_eq_mod pf 4
  have haf : pf >>> 4 = pf / 16 := by rw [Nat.shiftRight_eq_div_pow]
  refine ⟨?_, ?_, ?_, ?_⟩
  · show vc >>> 4 < 16
    rw [hvx]; norm_num
  · show vc &&& 0x0F < 16
    rw [hcmd]; omega
  · show pf &&& 0x0F < 16
    rw [hprot]; omega
  · show pf >>> 4 < 16
    rw [haf]; omega

/-- Witness for claim C10 at the concrete valid 16-byte input. -/
theorem parse_header_nibble_bounds_witness :
    (PPv2Header.mk 2 1 1 1 12).version < 16 ∧
    (PPv2Header.mk 2 1 1 1 12).command < 16 ∧
    (PPv2Header.mk 2 1 1 1 12).protocol < 16 ∧
    (PPv2Header.mk 2 1 1 1 12).address_family < 16 :=
  parse_header_nibble_bounds (SIGNATURE ++ [0x21, 0x11, 0x00, 0x0C]) []
    ⟨2, 1, 1, 1, 12⟩ (@parse_header_append 0x21 0x11 0x00 0x0C [] rfl) (by decide)

end PPv2
